import Mathlib

/-!
# Verification of the qgis2fds mesh-reconstruction core (`geometry.py`)

Shallow embedding of the terrain-mesh reconstruction pipeline of
`geometry.py`: the Grid Reshaper (`_get_matrix`), the Face Builder
(`_get_faces`) and the Vertex Reconstructor (`_inject_ghost_centers`,
`_get_verts`), together with the driver `get_geometry`.

Modelling conventions:
* Python floats are embedded as `ℚ`; every numeric step of the source is
  polynomial except the normalised cosine test, which is embedded by the
  algebraically equivalent squared comparison (see `_dot_product_gt`).
* Python exceptions are embedded as `Except Err`; `Err` enumerates the
  built-in Python exception kinds that can actually arise in this code
  (`geometry.py` contains no `raise` statement of its own).
* Attribute / land-use values are embedded as `PyVal` (a NULL-like value,
  an integer, or a string), so that Python truthiness (`a[5] or 0`) and
  the dynamic type errors of `-`/`+` on the land-use slot are faithful.
* The in-place mutation of the matrix performed by `_inject_ghost_centers`
  (the source comments it with "modification in place") is embedded by
  explicit state passing: `_get_verts` returns the vertex list together
  with the final state of the matrix object.
-/

set_option autoImplicit false

namespace Qgis2fds

/-- A Python attribute value as it can appear in the land-use slot of a
feature: a NULL/None-like value, an integer code, or a string code. -/
inductive PyVal where
  | null
  | int (n : Int)
  | str (s : String)
deriving DecidableEq, Repr, Inhabited

/-- Python truthiness test on a `PyVal`: `None`/NULL, `0` and `""` are
falsy, everything else is truthy. -/
def PyVal.falsy : PyVal → Bool
  | .null => true
  | .int n => n == 0
  | .str s => s == ""

/-- Python `a or b`: `b` when `a` is falsy, `a` otherwise. -/
def pyOr (a b : PyVal) : PyVal := if a.falsy then b else a

/-- `true` exactly when the value is an integer code. -/
def PyVal.isInt : PyVal → Bool
  | .int _ => true
  | _ => false

/-- The built-in Python exception kinds that can arise in `geometry.py`:
division by zero in `_dot_product`, `-`/`+` on non-numeric land-use slots
in `_inject_ghost_centers`, and out-of-range indexing. -/
inductive Err where
  | zeroDivisionError
  | typeError
  | indexError
deriving DecidableEq, Repr

/-- Python `x - y` on land-use slot values: defined for two integers,
a `TypeError` otherwise (in particular for strings and NULL). -/
def PyVal.sub : PyVal → PyVal → Except Err PyVal
  | .int a, .int b => .ok (.int (a - b))
  | _, _ => .error .typeError

/-- Python `x + y` on land-use slot values, as used on the land-use slot
by the ghost-center arithmetic: defined for two integers, a `TypeError`
otherwise.  (String concatenation never arises there because the
displacement's land-use slot is produced by `PyVal.sub`.) -/
def PyVal.add : PyVal → PyVal → Except Err PyVal
  | .int a, .int b => .ok (.int (a + b))
  | _, _ => .error .typeError

/-- One feature of the sampling point layer: a 3D point (`geometry().get()`)
plus its attribute list (`attributes()`); slot 5 carries the land-use. -/
structure Feature where
  x : ℚ
  y : ℚ
  z : ℚ
  attrs : List PyVal
deriving DecidableEq, Repr

/-- One cell-center sample of the matrix, the 4-tuple
`(x - ox, y - oy, z, a[5] or 0)` built by `_get_matrix`. -/
structure Sample where
  x : ℚ
  y : ℚ
  z : ℚ
  lu : PyVal
deriving DecidableEq, Repr

/-- A placeholder sample used only to totalise list lookups in
specification-side definitions; it never influences a proved value. -/
def dummy : Sample := ⟨0, 0, 0, .int 0⟩

instance : Inhabited Sample := ⟨dummy⟩

/-- A reconstructed grid-corner vertex `(x, y, z)` (no land-use). -/
structure Vert where
  x : ℚ
  y : ℚ
  z : ℚ
deriving DecidableEq, Repr

/-- Python `l[i]` for `i ≥ 0`: the element, or an `IndexError`. -/
def getIdx {α : Type} (l : List α) (i : Nat) : Except Err α :=
  match l.get? i with
  | some a => .ok a
  | none => .error .indexError

/-- Python `l[-1]`: the last element, or an `IndexError` on `[]`. -/
def getLastE {α : Type} (l : List α) : Except Err α :=
  match l.getLast? with
  | some a => .ok a
  | none => .error .indexError

/-- Left-to-right effectful map over `Except`, mirroring a Python loop or
comprehension that can raise: the first exception aborts the whole map. -/
def mapE {α β : Type} (f : α → Except Err β) : List α → Except Err (List β)
  | [] => .ok []
  | a :: l => do
    let b ← f a
    let bs ← mapE f l
    .ok (b :: bs)

instance {e a : Type} [DecidableEq e] [DecidableEq a] : DecidableEq (Except e a) := fun x y =>
  match x, y with
  | .ok v, .ok w => if h : v = w then isTrue (by rw [h]) else isFalse (by simp [h])
  | .error v, .error w => if h : v = w then isTrue (by rw [h]) else isFalse (by simp [h])
  | .ok _, .error _ => isFalse (by simp)
  | .error _, .ok _ => isFalse (by simp)

/-! ## Grid Reshaper (`_get_matrix`, `geometry.py` lines 70-125) -/

/-- The squared Euclidean norm of a 2D vector.  The source's `_norm`
computes `sqrt (x² + y²)`; only the comparison of the normalised dot
product against `0.1` and the zero test of the denominator are ever used,
and both are expressed through the square below. -/
def _norm_sq (v : ℚ × ℚ) : ℚ := v.1 ^ 2 + v.2 ^ 2

/-- The source's test `abs(_dot_product(p0, p1, p2)) > 0.1` where
`_dot_product` is `(v0 · v1) / (|v0| * |v1|)` with `v0 = p1 - p0`,
`v1 = p2 - p0` (lines 74-77, 102).  When `|v0| * |v1| = 0` Python raises
an unguarded `ZeroDivisionError`; otherwise, since both sides of
`|v0 · v1| / (|v0| |v1|) > 1/10` are nonnegative, squaring gives the
equivalent polynomial test `100 (v0 · v1)² > |v0|² |v1|²`. -/
def _dot_product_gt (p0 p1 p2 : ℚ × ℚ) : Except Err Bool :=
  let v0 : ℚ × ℚ := (p1.1 - p0.1, p1.2 - p0.2)
  let v1 : ℚ × ℚ := (p2.1 - p0.1, p2.2 - p0.2)
  let d : ℚ := v0.1 * v1.1 + v0.2 * v1.2
  if _norm_sq v0 * _norm_sq v1 = 0 then .error .zeroDivisionError
  else .ok (decide (100 * d ^ 2 > _norm_sq v0 * _norm_sq v1))

/-- The column-length scan of lines 92-105 after the first two points have
been seen: each further point that passes the collinearity test extends
the column (`column_len += 1`); the first failing point ends the scan. -/
def scanColumnLen (first second : ℚ × ℚ) : List (ℚ × ℚ) → Nat → Except Err Nat
  | [], clen => .ok clen
  | p :: ps, clen => do
    let b ← _dot_product_gt first second p
    if b then scanColumnLen first second ps (clen + 1) else .ok clen

/-- The full first loop of `_get_matrix` (lines 92-105): `column_len` is 1
after one point, 2 after two, and then grows per `scanColumnLen`.  On the
empty stream the Python variable `column_len` is never assigned, but it is
also never read (the second loop body never runs), so the returned value 0
is immaterial. -/
def columnLenOf : List (ℚ × ℚ) → Except Err Nat
  | [] => .ok 0
  | [_] => .ok 1
  | f :: s :: rest => scanColumnLen f s rest 2

/-- The sample built for one feature in the second loop (lines 109-115):
`(g.x() - ox, g.y() - oy, g.z(), a[5] or 0)`.  `a[5]` raises `IndexError`
when the attribute list is shorter than 6. -/
def featureToSample (origin : ℚ × ℚ) (f : Feature) : Except Err Sample :=
  match f.attrs.get? 5 with
  | some a5 => .ok ⟨f.x - origin.1, f.y - origin.2, f.z, pyOr a5 (.int 0)⟩
  | none => .error .indexError

/-- Python `m[-1].append(p)`: append to the last column.  The `[]` case
mirrors an `IndexError` state that is unreachable from `splitColumns`
(a column is always created before any append). -/
def appendToLast {α : Type} (m : List (List α)) (p : α) : List (List α) :=
  match m with
  | [] => []
  | [c] => [c ++ [p]]
  | c :: cs => c :: appendToLast cs p

/-- The second loop of `_get_matrix` (lines 107-124) with its two pieces of
state: the in-chunk counter `i` and the column list `m`.  Each point first
increments `i`; at `i = 1` it opens a new column, at `i = column_len` it is
**dropped** and the counter resets, otherwise it is appended to the last
column. -/
def splitColumns (clen : Nat) : List Sample → Nat → List (List Sample) → List (List Sample)
  | [], _, m => m
  | p :: ps, i, m =>
    if i + 1 = 1 then splitColumns clen ps (i + 1) (m ++ [[p]])
    else if i + 1 = clen then splitColumns clen ps 0 m
    else splitColumns clen ps (i + 1) (appendToLast m p)

/-- The number of rows `zip(*m)` produces: the minimum column length. -/
def minColLen {α : Type} : List (List α) → Nat
  | [] => 0
  | c :: cs => (cs.map List.length).foldl Nat.min c.length

/-- Python `list(map(list, zip(*m)))` (line 125): the transpose that
truncates every column to the shortest one, and yields `[]` for `zip()`.
For `k < minColLen m` every `get? k` succeeds, so row `k` is exactly the
`k`-th entry of every column in order. -/
def pyTranspose {α : Type} (m : List (List α)) : List (List α) :=
  match m with
  | [] => []
  | _ => (List.range (minColLen m)).map fun k => m.filterMap fun col => col.get? k

/-- `_get_matrix` (lines 80-125).

Modelled from the spec: `layer.getFeatures()` is a QGIS object that is not
part of this repository; following spec §4.1 step 2 ("Re-scan the full
stream, cutting it into consecutive chunks of exactly `column_len`
samples") it is modelled as delivering the full feature stream to each of
the two `for` loops.  Everything else is translated from the source:
the first loop infers `column_len` from the origin-relative `(x, y)`
points, the second loop builds the samples `(x-ox, y-oy, z, a[5] or 0)`
and splits them into columns, and the result is the truncating
transpose. -/
def _get_matrix (layer : List Feature) (utm_origin : ℚ × ℚ) :
    Except Err (List (List Sample)) := do
  let pts := layer.map fun f => (f.x - utm_origin.1, f.y - utm_origin.2)
  let clen ← columnLenOf pts
  let samples ← mapE (featureToSample utm_origin) layer
  .ok (pyTranspose (splitColumns clen samples 0 []))

/-! ## Face Builder (`_get_faces`, `geometry.py` lines 138-171) -/

/-- A triangular face: three 1-based vertex indices. -/
abbrev Face := Nat × Nat × Nat

/-- `_get_vert_index` (line 138): `i * len_vrow + j + 1` (1-based). -/
def _get_vert_index (i j len_vrow : Nat) : Nat := i * len_vrow + j + 1

/-- `_get_f1` (lines 143-148). -/
def _get_f1 (i j len_vrow : Nat) : Face :=
  (_get_vert_index i j len_vrow,
   _get_vert_index (i + 1) j len_vrow,
   _get_vert_index i (j + 1) len_vrow)

/-- `_get_f2` (lines 151-156). -/
def _get_f2 (i j len_vrow : Nat) : Face :=
  (_get_vert_index (i + 1) (j + 1) len_vrow,
   _get_vert_index i (j + 1) len_vrow,
   _get_vert_index (i + 1) j len_vrow)

/-- `_get_faces` (lines 159-171): `len_vrow = len(matrix[0]) + 1` (an
`IndexError` on an empty matrix), then for every cell `(i, j)` in row-major
order the two faces `f1`, `f2` are appended to `faces` and the cell's
land-use `p[3]` twice to `landuses`.  The two parallel `extend`s are
embedded as two parallel flattenings. -/
def _get_faces (matrix : List (List Sample)) :
    Except Err (List Face × List PyVal) := do
  let row0 ← getIdx matrix 0
  let len_vrow := row0.length + 1
  let faces := matrix.enum.flatMap fun ir =>
    ir.2.enum.flatMap fun jp => [_get_f1 ir.1 jp.1 len_vrow, _get_f2 ir.1 jp.1 len_vrow]
  let landuses := matrix.enum.flatMap fun ir =>
    ir.2.flatMap fun p => [p.lu, p.lu]
  .ok (faces, landuses)

/-! ## Vertex Reconstructor (`_inject_ghost_centers`, `_get_verts`,
`geometry.py` lines 203-264) -/

/-- Componentwise `map(fsub, zip(c, d))` on two sample 4-tuples: the three
coordinates subtract in `ℚ`; the land-use slot subtracts as a Python
value and raises `TypeError` unless both slots are integers. -/
def sampleSub (a b : Sample) : Except Err Sample := do
  let lu ← PyVal.sub a.lu b.lu
  .ok ⟨a.x - b.x, a.y - b.y, a.z - b.z, lu⟩

/-- Componentwise `map(fadd, zip(c, d))` on two sample 4-tuples. -/
def sampleAdd (a b : Sample) : Except Err Sample := do
  let lu ← PyVal.add a.lu b.lu
  .ok ⟨a.x + b.x, a.y + b.y, a.z + b.z, lu⟩

/-- `dx[2] = 0.0` / `dy[2] = 0.0` (line 214): zero the elevation slot. -/
def zeroZ (s : Sample) : Sample := { s with z := 0 }

/-- `_inject_ghost_centers` (lines 203-231), embedded as a function from
the matrix to its post-mutation state (the source mutates `matrix` in
place — its own comment on line 257 is "modification in place").

Order of operations as in the source: `dx = matrix[0][1] - matrix[0][0]`,
`dy = matrix[1][0] - matrix[0][0]` (all four tuple slots, land-use
included), elevations of `dx`, `dy` zeroed, a ghost row `matrix[0] - dy`
prepended, a ghost row `matrix[-1] + dy` (the last row after the prepend)
appended, and then every row gets `row[0] - dx` prepended and
`row[-1] + dx` (the last entry after the prepend) appended. -/
def _inject_ghost_centers (m : List (List Sample)) :
    Except Err (List (List Sample)) := do
  let row0 ← getIdx m 0
  let p01 ← getIdx row0 1
  let p00 ← getIdx row0 0
  let row1 ← getIdx m 1
  let p10 ← getIdx row1 0
  let dx0 ← sampleSub p01 p00
  let dy0 ← sampleSub p10 p00
  let dx := zeroZ dx0
  let dy := zeroZ dy0
  let ghostFirst ← mapE (fun c => sampleSub c dy) row0
  let m1 := ghostFirst :: m
  let lastRow ← getLastE m1
  let ghostLast ← mapE (fun c => sampleAdd c dy) lastRow
  let m2 := m1 ++ [ghostLast]
  mapE (fun row => do
    let h ← getIdx row 0
    let gcF ← sampleSub h dx
    let row2 := gcF :: row
    let t ← getLastE row2
    let gcL ← sampleAdd t dx
    .ok (row2 ++ [gcL])) m2

/-- `_get_neighbour_centers` (lines 234-240): the four cell centers around
corner `j` of the row pair; the `[:-1]` land-use stripping of the source
is embedded by `_get_vert` reading only the coordinate fields. -/
def _get_neighbour_centers (prev_row row : List Sample) (j : Nat) :
    Except Err (List Sample) := do
  let a ← getIdx prev_row j
  let b ← getIdx prev_row (j + 1)
  let c ← getIdx row j
  let d ← getIdx row (j + 1)
  .ok [a, b, c, d]

/-- `_avg` (lines 243-244): `sum(l) / len(l)`. -/
def _avg (l : List ℚ) : ℚ := l.sum / l.length

/-- `_get_vert` (lines 247-248): the componentwise average of the centers'
coordinates (their land-use slots were stripped by `[:-1]`). -/
def _get_vert (centers : List Sample) : Vert :=
  ⟨_avg (centers.map Sample.x), _avg (centers.map Sample.y), _avg (centers.map Sample.z)⟩

/-- The inner loop of `_get_verts` (lines 261-262): one vertex for every
`j` indexing `row[:-1]`. -/
def vertRow (prev_row row : List Sample) : Except Err (List Vert) :=
  mapE (fun j => do
    let cs ← _get_neighbour_centers prev_row row j
    .ok (_get_vert cs)) (List.range (row.length - 1))

/-- The outer loop of `_get_verts` (lines 259-263): walk consecutive row
pairs of the padded matrix. -/
def vertsLoop : List Sample → List (List Sample) → Except Err (List Vert)
  | _, [] => .ok []
  | prev, row :: rest => do
    let vs ← vertRow prev row
    let more ← vertsLoop row rest
    .ok (vs ++ more)

/-- `_get_verts` (lines 251-264), returning the vertex list together with
the post-call state of the caller's matrix (which the source has mutated
into the ghost-padded matrix). -/
def _get_verts (matrix : List (List Sample)) :
    Except Err (List Vert × List (List Sample)) := do
  let padded ← _inject_ghost_centers matrix
  match padded with
  | [] => .ok ([], padded)
  | p0 :: rest => do
    let vs ← vertsLoop p0 rest
    .ok (vs, padded)

/-! ## Driver (`get_geometry`, `geometry.py` lines 16-38) -/

/-- The cancellation answers of the progress/feedback collaborator at its
two polling points (after `_get_matrix` and after `_get_faces`). -/
structure Feedback where
  canceledAfterMatrix : Bool
  canceledAfterFaces : Bool
deriving DecidableEq, Repr

/-- The possible outcomes of `get_geometry`: the empty dict `{}` returned
on a cancelled poll, the 4-tuple `(verts, faces, landuses, landuses_set)`,
or a propagated Python exception. -/
inductive GeomResult where
  | emptyDict
  | result (verts : List Vert) (faces : List Face) (landuses : List PyVal)
      (landuses_set : List PyVal)
  | err (e : Err)
deriving DecidableEq, Repr

/-- `get_geometry` (lines 16-38), together with the trace of
`feedback.setCurrentStep` calls it performs (8 before reshaping, 9 before
face building, 10 before vertex building, 11 on completion).  The Python
`set(landuses)` is embedded as the deduplicated list of land-uses. -/
def get_geometry (fb : Feedback) (layer : List Feature) (utm_origin : ℚ × ℚ) :
    GeomResult × List Nat :=
  match _get_matrix layer utm_origin with
  | .error e => (.err e, [8])
  | .ok matrix =>
    if fb.canceledAfterMatrix then (.emptyDict, [8])
    else
      match _get_faces matrix with
      | .error e => (.err e, [8, 9])
      | .ok (faces, landuses) =>
        if fb.canceledAfterFaces then (.emptyDict, [8, 9])
        else
          let landuses_set := landuses.dedup
          match _get_verts matrix with
          | .error e => (.err e, [8, 9, 10])
          | .ok (verts, _) => (.result verts faces landuses landuses_set, [8, 9, 10, 11])

/-! ## Claim-side definitions

The definitions below transcribe the *words* of the specification claims,
to be compared with the source-translated functions above. -/

/-- Spec §4.2: "index of corner `(i, j)` is `i·(C+1) + j + 1` (1-based,
row-major)". -/
def cornerIdx (C r c : Nat) : Nat := r * (C + 1) + c + 1

/-- Spec §4.2: "Triangle 1: corners `(i,j)`, `(i+1,j)`, `(i,j+1)`". -/
def specTri1 (C i j : Nat) : Face :=
  (cornerIdx C i j, cornerIdx C (i + 1) j, cornerIdx C i (j + 1))

/-- Spec §4.2: "Triangle 2: corners `(i+1,j+1)`, `(i,j+1)`, `(i+1,j)`". -/
def specTri2 (C i j : Nat) : Face :=
  (cornerIdx C (i + 1) (j + 1), cornerIdx C i (j + 1), cornerIdx C (i + 1) j)

/-- The face list the spec describes: for each cell `(i, j)` in row-major
order, triangle 1 then triangle 2. -/
def specFaces (R C : Nat) : List Face :=
  (List.range R).flatMap fun i =>
    (List.range C).flatMap fun j => [specTri1 C i j, specTri2 C i j]

/-- The land-use tags parallel to `specFaces`: the land-use of cell
`(i, j)` repeated for both of its triangles, in row-major cell order. -/
def landusesOf (m : List (List Sample)) : List PyVal :=
  m.flatMap fun row => row.flatMap fun p => [p.lu, p.lu]

/-- The position of a sample (the land-use dropped). -/
def Sample.pos (s : Sample) : Vert := ⟨s.x, s.y, s.z⟩

/-- The component-wise arithmetic mean of four positions (spec §4.3
step 3). -/
def mean4 (a b c d : Vert) : Vert :=
  ⟨(a.x + b.x + c.x + d.x) / 4, (a.y + b.y + c.y + d.y) / 4, (a.z + b.z + c.z + d.z) / 4⟩

/-- The position of entry `(a, b)` of a matrix (totalised by `dummy`;
only in-range entries are ever referenced by the theorems). -/
def posAt (Q : List (List Sample)) (a b : Nat) : Vert :=
  ((Q.getD a []).getD b dummy).pos

/-- Total (fault-free) counterpart of `PyVal.sub` on integer land-uses;
the catch-all value is never reached under the integer-land-use
hypotheses of the theorems that use it. -/
def luSubZ : PyVal → PyVal → PyVal
  | .int a, .int b => .int (a - b)
  | _, _ => .int 0

/-- Total counterpart of `PyVal.add` on integer land-uses. -/
def luAddZ : PyVal → PyVal → PyVal
  | .int a, .int b => .int (a + b)
  | _, _ => .int 0

/-- Total componentwise difference of two sample 4-tuples. -/
def sampleSubT (a b : Sample) : Sample :=
  ⟨a.x - b.x, a.y - b.y, a.z - b.z, luSubZ a.lu b.lu⟩

/-- Total componentwise sum of two sample 4-tuples. -/
def sampleAddT (a b : Sample) : Sample :=
  ⟨a.x + b.x, a.y + b.y, a.z + b.z, luAddZ a.lu b.lu⟩

/-- The ghost-padded grid as the claims describe it (claim C2 wording,
spec §4.3 steps 1-2): `dx = grid[0][1] - grid[0][0]` and
`dy = grid[1][0] - grid[0][0]` with elevation components forced to zero,
a ghost row of first-row entries minus `dy` prepended, a ghost row of
last-row entries plus `dy` appended, and every row then extended with its
first entry minus `dx` in front and its last entry plus `dx` at the end. -/
def padTotal (m : List (List Sample)) : List (List Sample) :=
  let row0 := m.headD []
  let dx := zeroZ (sampleSubT (row0.getD 1 dummy) (row0.getD 0 dummy))
  let dy := zeroZ (sampleSubT ((m.getD 1 []).getD 0 dummy) (row0.getD 0 dummy))
  let m1 := (row0.map fun c => sampleSubT c dy) :: m
  let m2 := m1 ++ [(m1.getLastD []).map fun c => sampleAddT c dy]
  m2.map fun row =>
    let row2 := sampleSubT (row.headD dummy) dx :: row
    row2 ++ [sampleAddT (row2.getLastD dummy) dx]

/-- Every land-use of the grid is an integer code. -/
def IntGrid (m : List (List Sample)) : Prop :=
  ∀ row ∈ m, ∀ s ∈ row, s.lu.isInt = true

instance (m : List (List Sample)) : Decidable (IntGrid m) := by
  unfold IntGrid; infer_instance

/-- Consecutive chunks of `k + 1` elements (the last chunk may be
shorter), used to state what the second reshaper loop actually keeps. -/
def chunksOf {α : Type} (k : Nat) : List α → List (List α)
  | [] => []
  | a :: l => (a :: l.take k) :: chunksOf k (l.drop k)
termination_by l => l.length
decreasing_by simp; omega

/-- Column `j` of a grid. -/
def columnOf (g : List (List Sample)) (j : Nat) : List Sample :=
  g.filterMap fun row => row.get? j

/-- The exact column-major flattening of a grid (claim C3): the entries
of column 0, then of column 1, and so on. -/
def flattenCM (g : List (List Sample)) : List Sample :=
  (List.range (g.headD []).length).flatMap fun j => columnOf g j

/-- Re-embed a sample as an input feature (land-use back in attribute
slot 5), for feeding a grid's flattening back to the reshaper. -/
def refeature (s : Sample) : Feature :=
  ⟨s.x, s.y, s.z, [.null, .null, .null, .null, .null, s.lu]⟩

/-! ## Concrete fixtures -/

/-- A feature at `(a, b, 0)` whose attribute slot 5 holds `lu`. -/
def feat (a b : ℚ) (lu : PyVal) : Feature :=
  ⟨a, b, 0, [.null, .null, .null, .null, .null, lu]⟩

/-- Two columns of three collinear points each: the reshaper infers
`column_len = 3` and produces the 2×2 grid `g22`. -/
def S6 : List Feature :=
  [feat 0 0 (.int 7), feat 0 1 (.int 7), feat 0 2 (.int 7),
   feat 1 0 (.int 7), feat 1 1 (.int 7), feat 1 2 (.int 7)]

/-- The 2×2 grid of cell centers `(0,0), (1,0)` / `(0,1), (1,1)`, all
elevation 0, all land-use `7`. -/
def g22 : List (List Sample) :=
  [[⟨0, 0, 0, .int 7⟩, ⟨1, 0, 0, .int 7⟩],
   [⟨0, 1, 0, .int 7⟩, ⟨1, 1, 0, .int 7⟩]]

/-- The same 2×2 grid with the string land-use `"A"` of the spec's
concrete scenario (claim C8). -/
def gA : List (List Sample) :=
  [[⟨0, 0, 0, .str "A"⟩, ⟨1, 0, 0, .str "A"⟩],
   [⟨0, 1, 0, .str "A"⟩, ⟨1, 1, 0, .str "A"⟩]]

/-- The same 2×2 grid with the string land-use `"B"` (claim C2's
counterexample grid). -/
def gB : List (List Sample) :=
  [[⟨0, 0, 0, .str "B"⟩, ⟨1, 0, 0, .str "B"⟩],
   [⟨0, 1, 0, .str "B"⟩, ⟨1, 1, 0, .str "B"⟩]]

/-- The 9 corner vertices of the 2×2 grids above, in row-major corner
order: the lattice `(-1/2, 1/2, 3/2) × (-1/2, 1/2, 3/2)` at elevation 0. -/
def v22 : List Vert :=
  [⟨-(1/2), -(1/2), 0⟩, ⟨1/2, -(1/2), 0⟩, ⟨3/2, -(1/2), 0⟩,
   ⟨-(1/2), 1/2, 0⟩, ⟨1/2, 1/2, 0⟩, ⟨3/2, 1/2, 0⟩,
   ⟨-(1/2), 3/2, 0⟩, ⟨1/2, 3/2, 0⟩, ⟨3/2, 3/2, 0⟩]

/-- The post-mutation state of the 2×2 matrix after `_get_verts`: the
4×4 ghost-padded matrix. -/
def p22 : List (List Sample) :=
  [[⟨-1, -1, 0, .int 7⟩, ⟨0, -1, 0, .int 7⟩, ⟨1, -1, 0, .int 7⟩, ⟨2, -1, 0, .int 7⟩],
   [⟨-1, 0, 0, .int 7⟩, ⟨0, 0, 0, .int 7⟩, ⟨1, 0, 0, .int 7⟩, ⟨2, 0, 0, .int 7⟩],
   [⟨-1, 1, 0, .int 7⟩, ⟨0, 1, 0, .int 7⟩, ⟨1, 1, 0, .int 7⟩, ⟨2, 1, 0, .int 7⟩],
   [⟨-1, 2, 0, .int 7⟩, ⟨0, 2, 0, .int 7⟩, ⟨1, 2, 0, .int 7⟩, ⟨2, 2, 0, .int 7⟩]]

/-- Eight points: one column of four collinear points, then a second
column of four; the reshaper infers `column_len = 4`. -/
def S8 : List Feature :=
  [feat 0 0 (.int 7), feat 0 1 (.int 7), feat 0 2 (.int 7), feat 0 3 (.int 7),
   feat 1 0 (.int 7), feat 1 1 (.int 7), feat 1 2 (.int 7), feat 1 3 (.int 7)]

/-- Four points: three collinear points then one off-column point, so
`column_len = 3` but the second chunk is short (non-uniform columns). -/
def S4 : List Feature :=
  [feat 0 0 (.int 7), feat 0 1 (.int 7), feat 0 2 (.int 7), feat 1 0 (.int 7)]

/-! ## General helper lemmas -/

theorem bind_ok {α β : Type} (a : α) (f : α → Except Err β) :
    (Except.ok a >>= f : Except Err β) = f a := rfl

theorem bind_error {α β : Type} (e : Err) (f : α → Except Err β) :
    ((Except.error e : Except Err α) >>= f : Except Err β) = Except.error e := rfl

theorem mapE_ok_of_forall {α β : Type} {f : α → Except Err β} {g : α → β} :
    ∀ {l : List α}, (∀ a ∈ l, f a = .ok (g a)) → mapE f l = .ok (l.map g)
  | [], _ => rfl
  | a :: l, h => by
    have ha : f a = .ok (g a) := h a (List.mem_cons_self a l)
    have hl : mapE f l = .ok (l.map g) :=
      mapE_ok_of_forall fun b hb => h b (List.mem_cons_of_mem a hb)
    simp [mapE, ha, hl, bind_ok]

theorem getIdx_eq_ok {α : Type} {l : List α} {i : Nat} (d : α) (h : i < l.length) :
    getIdx l i = .ok (l.getD i d) := by
  simp [getIdx, List.get?_eq_getElem?, List.getElem?_eq_getElem h, List.getD_eq_getElem?_getD]

theorem getLastE_eq_ok {α : Type} {l : List α} (d : α) (h : l ≠ []) :
    getLastE l = .ok (l.getLastD d) := by
  rw [getLastE, List.getLastD_eq_getLast?]
  cases hl : l.getLast? with
  | none => exact absurd (List.getLast?_eq_none_iff.mp hl) h
  | some a => rfl

theorem snd_mem_of_mem_enum {α : Type} {x : Nat × α} {l : List α}
    (h : x ∈ l.enum) : x.2 ∈ l := by
  have := List.mem_map_of_mem Prod.snd h
  rwa [List.enum_map_snd] at this

theorem enum_flatMap_fst {α β : Type} (l : List α) (g : Nat → List β) :
    (l.enum.flatMap fun p => g p.1) = (List.range l.length).flatMap g := by
  rw [← List.enum_map_fst l, List.flatMap_map]

theorem enum_flatMap_snd {α β : Type} (l : List α) (h : α → List β) :
    (l.enum.flatMap fun p => h p.2) = l.flatMap h := by
  conv_rhs => rw [← List.enum_map_snd l]
  rw [List.flatMap_map]

theorem length_flatMap_const {β : Type} (F : Nat → List β) (n c : Nat)
    (h : ∀ i, (F i).length = c) : ((List.range n).flatMap F).length = n * c := by
  rw [List.length_flatMap]
  have : List.map (List.length ∘ F) (List.range n) = List.replicate n c := by
    have h2 : ∀ i ∈ List.range n, (List.length ∘ F) i = (fun _ : Nat => c) i :=
      fun i _ => h i
    rw [List.map_congr_left h2, List.map_const', List.length_range]
  rw [this, List.sum_replicate, smul_eq_mul]

/-- Indexing into a row-major flattening of `n` blocks of `k` entries. -/
theorem flatMap_blocks_getElem {β : Type} :
    ∀ (n : Nat) (g : Nat → Nat → β) (k i j : Nat), i < n → j < k →
      ((List.range n).flatMap fun a => (List.range k).map (g a))[i * k + j]? = some (g i j)
  | 0, _, _, _, _, hi, _ => absurd hi (Nat.not_lt_zero _)
  | n + 1, g, k, i, j, hi, hj => by
    rw [List.range_succ_eq_map, List.flatMap_cons, List.flatMap_map]
    cases i with
    | zero =>
      rw [Nat.zero_mul, Nat.zero_add,
        List.getElem?_append_left (by simp [hj]), List.getElem?_map,
        List.getElem?_range hj]
      rfl
    | succ i' =>
      have hlen : ((List.range k).map (g 0)).length = k := by simp
      have hle : ((List.range k).map (g 0)).length ≤ (i' + 1) * k + j := by
        rw [hlen, Nat.succ_mul]; omega
      rw [List.getElem?_append_right hle, hlen]
      have hidx : (i' + 1) * k + j - k = i' * k + j := by rw [Nat.succ_mul]; omega
      rw [hidx]
      exact flatMap_blocks_getElem n (fun a => g (a + 1)) k i' j (Nat.lt_of_succ_lt_succ hi) hj

theorem flatMap_blocks_length {β : Type} (n k : Nat) (g : Nat → Nat → β) :
    ((List.range n).flatMap fun a => (List.range k).map (g a)).length = n * k :=
  length_flatMap_const _ n k fun i => by simp

/-! ## Face Builder lemmas (claim C1) -/

theorem get_f1_eq_specTri1 (C i j : Nat) : _get_f1 i j (C + 1) = specTri1 C i j := rfl

theorem get_f2_eq_specTri2 (C i j : Nat) : _get_f2 i j (C + 1) = specTri2 C i j := rfl

theorem get_faces_eq {m : List (List Sample)} {R C : Nat}
    (hlen : m.length = R) (hR : 1 ≤ R) (hrows : ∀ row ∈ m, row.length = C) :
    _get_faces m = .ok (specFaces R C, landusesOf m) := by
  cases m with
  | nil => rw [List.length_nil] at hlen; omega
  | cons r0 m' =>
    have h0 : r0.length = C := hrows r0 (List.mem_cons_self r0 m')
    have hstart : _get_faces (r0 :: m') = .ok
        ((r0 :: m').enum.flatMap fun ir => ir.2.enum.flatMap fun jp =>
          [_get_f1 ir.1 jp.1 (r0.length + 1), _get_f2 ir.1 jp.1 (r0.length + 1)],
         (r0 :: m').enum.flatMap fun ir => ir.2.flatMap fun p => [p.lu, p.lu]) := rfl
    have hinner : ∀ ir ∈ (r0 :: m').enum,
        (ir.2.enum.flatMap fun jp =>
          [_get_f1 ir.1 jp.1 (r0.length + 1), _get_f2 ir.1 jp.1 (r0.length + 1)])
        = (List.range C).flatMap fun j => [specTri1 C ir.1 j, specTri2 C ir.1 j] := by
      intro ir hir
      rw [h0, enum_flatMap_fst ir.2 fun j => [_get_f1 ir.1 j (C + 1), _get_f2 ir.1 j (C + 1)],
        hrows ir.2 (snd_mem_of_mem_enum hir)]
      rfl
    have hfaces :
        ((r0 :: m').enum.flatMap fun ir => ir.2.enum.flatMap fun jp =>
          [_get_f1 ir.1 jp.1 (r0.length + 1), _get_f2 ir.1 jp.1 (r0.length + 1)])
        = specFaces R C := by
      rw [List.flatMap_congr hinner,
        enum_flatMap_fst (r0 :: m') fun i =>
          (List.range C).flatMap fun j => [specTri1 C i j, specTri2 C i j], hlen]
      rfl
    have hlus :
        ((r0 :: m').enum.flatMap fun ir => ir.2.flatMap fun p => [p.lu, p.lu])
        = landusesOf (r0 :: m') :=
      enum_flatMap_snd (r0 :: m') fun row => row.flatMap fun p => [p.lu, p.lu]
    rw [hstart, hfaces, hlus]

theorem flatMap_two_length {α β : Type} (l : List α) (f g : α → β) :
    (l.flatMap fun p => [f p, g p]).length = 2 * l.length := by
  induction l with
  | nil => rfl
  | cons a l ih => simp only [List.flatMap_cons, List.length_append, ih,
      List.length_cons, List.length_nil]; omega

theorem specFaces_length (R C : Nat) : (specFaces R C).length = 2 * R * C := by
  unfold specFaces
  rw [length_flatMap_const _ R (2 * C) fun i =>
    flatMap_two_length (List.range C) _ _ |>.trans (by rw [List.length_range])]
  ring

theorem landusesOf_length {m : List (List Sample)} {R C : Nat}
    (hlen : m.length = R) (hrows : ∀ row ∈ m, row.length = C) :
    (landusesOf m).length = 2 * R * C := by
  unfold landusesOf
  rw [List.length_flatMap]
  have hmap : List.map (List.length ∘ fun row => row.flatMap fun p => [p.lu, p.lu]) m
      = List.replicate m.length (2 * C) := by
    have h2 : ∀ row ∈ m, (List.length ∘ fun row => row.flatMap fun p => [p.lu, p.lu]) row
        = (fun _ : List Sample => 2 * C) row := by
      intro row hrow
      show (row.flatMap fun p => [p.lu, p.lu]).length = 2 * C
      rw [flatMap_two_length, hrows row hrow]
    rw [List.map_congr_left h2, List.map_const']
  rw [hmap, List.sum_replicate, smul_eq_mul, hlen]
  ring

theorem cornerIdx_bounds {R C r c : Nat} (hr : r ≤ R) (hc : c ≤ C) :
    1 ≤ cornerIdx C r c ∧ cornerIdx C r c ≤ (R + 1) * (C + 1) := by
  refine ⟨Nat.le_add_left 1 (r * (C + 1) + c), ?_⟩
  have h1 : r * (C + 1) ≤ R * (C + 1) := Nat.mul_le_mul_right _ hr
  calc r * (C + 1) + c + 1 ≤ R * (C + 1) + C + 1 := by
        exact Nat.add_le_add (Nat.add_le_add h1 hc) (Nat.le_refl 1)
    _ = (R + 1) * (C + 1) := by ring

theorem specFaces_bounds {R C : Nat} :
    ∀ t ∈ specFaces R C,
      (1 ≤ t.1 ∧ t.1 ≤ (R + 1) * (C + 1)) ∧
      (1 ≤ t.2.1 ∧ t.2.1 ≤ (R + 1) * (C + 1)) ∧
      (1 ≤ t.2.2 ∧ t.2.2 ≤ (R + 1) * (C + 1)) := by
  intro t ht
  unfold specFaces at ht
  obtain ⟨i, hi, ht⟩ := List.mem_flatMap.mp ht
  obtain ⟨j, hj, ht⟩ := List.mem_flatMap.mp ht
  rw [List.mem_range] at hi hj
  have hiR : i ≤ R := Nat.le_of_lt hi
  have hi1 : i + 1 ≤ R := hi
  have hjC : j ≤ C := Nat.le_of_lt hj
  have hj1 : j + 1 ≤ C := hj
  rcases List.mem_cons.mp ht with h | h
  · subst h
    exact ⟨cornerIdx_bounds hiR hjC, cornerIdx_bounds hi1 hjC, cornerIdx_bounds hiR hj1⟩
  · rcases List.mem_cons.mp h with h | h
    · subst h
      exact ⟨cornerIdx_bounds hi1 hj1, cornerIdx_bounds hiR hj1, cornerIdx_bounds hi1 hjC⟩
    · exact absurd h (List.not_mem_nil t)

/-- **C1.** For every rectangular R×C grid (R ≥ 1, C ≥ 1), `_get_faces`
emits exactly `2·R·C` triangles and a land-use list of the same length,
in row-major cell order: cell `(i, j)` yields triangle 1 with corners
`(i,j), (i+1,j), (i,j+1)` and triangle 2 with corners
`(i+1,j+1), (i,j+1), (i+1,j)`, each corner `(r, c)` encoded as the
1-based index `r·(C+1) + c + 1` (`specFaces`), both triangles carrying
the land-use of cell `(i, j)` (`landusesOf`); every emitted vertex index
lies in `[1, (R+1)·(C+1)]`. -/
theorem C1_face_builder (m : List (List Sample)) (R C : Nat)
    (hR : 1 ≤ R) (hC : 1 ≤ C) (hlen : m.length = R)
    (hrows : ∀ row ∈ m, row.length = C) :
    _get_faces m = .ok (specFaces R C, landusesOf m) ∧
    (specFaces R C).length = 2 * R * C ∧
    (landusesOf m).length = 2 * R * C ∧
    ∀ t ∈ specFaces R C,
      (1 ≤ t.1 ∧ t.1 ≤ (R + 1) * (C + 1)) ∧
      (1 ≤ t.2.1 ∧ t.2.1 ≤ (R + 1) * (C + 1)) ∧
      (1 ≤ t.2.2 ∧ t.2.2 ≤ (R + 1) * (C + 1)) :=
  ⟨get_faces_eq hlen hR hrows, specFaces_length R C,
    landusesOf_length hlen hrows, specFaces_bounds⟩

/-- Witness for `C1_face_builder` at the concrete 2×2 grid `g22`. -/
theorem C1_face_builder_witness :
    (1 ≤ 2 ∧ 1 ≤ 2 ∧ g22.length = 2 ∧ ∀ row ∈ g22, row.length = 2) ∧
    (_get_faces g22 = .ok (specFaces 2 2, landusesOf g22) ∧
     (specFaces 2 2).length = 2 * 2 * 2 ∧
     (landusesOf g22).length = 2 * 2 * 2 ∧
     ∀ t ∈ specFaces 2 2,
       (1 ≤ t.1 ∧ t.1 ≤ (2 + 1) * (2 + 1)) ∧
       (1 ≤ t.2.1 ∧ t.2.1 ≤ (2 + 1) * (2 + 1)) ∧
       (1 ≤ t.2.2 ∧ t.2.2 ≤ (2 + 1) * (2 + 1))) :=
  ⟨⟨by decide, by decide, by decide, by decide⟩,
    C1_face_builder g22 2 2 (by decide) (by decide) (by decide) (by decide)⟩

/-! ## Vertex Reconstructor lemmas (claims C2, C4) -/

theorem luSubZ_isInt (a b : PyVal) : (luSubZ a b).isInt = true := by
  cases a <;> cases b <;> rfl

theorem luAddZ_isInt (a b : PyVal) : (luAddZ a b).isInt = true := by
  cases a <;> cases b <;> rfl

theorem sampleSub_eq_ok {a b : Sample} (ha : a.lu.isInt = true) (hb : b.lu.isInt = true) :
    sampleSub a b = .ok (sampleSubT a b) := by
  obtain ⟨ax, ay, az, alu⟩ := a
  obtain ⟨bx, bv, bz, blu⟩ := b
  cases alu <;> cases blu <;>
    simp_all [PyVal.isInt, sampleSub, PyVal.sub, sampleSubT, luSubZ, bind_ok]

theorem sampleAdd_eq_ok {a b : Sample} (ha : a.lu.isInt = true) (hb : b.lu.isInt = true) :
    sampleAdd a b = .ok (sampleAddT a b) := by
  obtain ⟨ax, ay, az, alu⟩ := a
  obtain ⟨bx, bv, bz, blu⟩ := b
  cases alu <;> cases blu <;>
    simp_all [PyVal.isInt, sampleAdd, PyVal.add, sampleAddT, luAddZ, bind_ok]

theorem getLastD_mem {α : Type} : ∀ (l : List α) (d : α), l ≠ [] → l.getLastD d ∈ l
  | [a], d, _ => by simp [List.getLastD_cons]
  | a :: b :: l, d, _ => by
    rw [List.getLastD_cons]
    exact List.mem_cons_of_mem a (getLastD_mem (b :: l) a (by simp))

theorem getLastD_length {α : Type} {c : Nat} (l : List (List α)) (d : List α)
    (h : l ≠ []) (hl : ∀ r ∈ l, r.length = c) : (l.getLastD d).length = c :=
  hl _ (getLastD_mem l d h)

theorem getIdx_cons_zero {α : Type} (x : α) (xs : List α) : getIdx (x :: xs) 0 = .ok x := rfl

theorem getIdx_cons_one {α : Type} (x y : α) (xs : List α) :
    getIdx (x :: y :: xs) 1 = .ok y := rfl

theorem getLastE_cons {α : Type} (x : α) (xs : List α) :
    getLastE (x :: xs) = .ok (xs.getLastD x) := by
  rw [getLastE_eq_ok x (List.cons_ne_nil x xs), List.getLastD_cons]

/-- One row of the final padding loop of `_inject_ghost_centers`: for a
nonempty row of integer land-uses the body extends the row by the two
ghost columns. -/
theorem extRow_eq {dxv : Sample} (hdx : dxv.lu.isInt = true) :
    ∀ {row : List Sample}, row ≠ [] → (∀ s ∈ row, s.lu.isInt = true) →
      (do
        let h ← getIdx row 0
        let gcF ← sampleSub h dxv
        let t ← getLastE (gcF :: row)
        let gcL ← sampleAdd t dxv
        (.ok ((gcF :: row) ++ [gcL]) : Except Err (List Sample)))
      = .ok ((sampleSubT (row.headD dummy) dxv :: row)
          ++ [sampleAddT (row.getLastD (sampleSubT (row.headD dummy) dxv)) dxv])
  | [], hne, _ => absurd rfl hne
  | x :: xs, _, hint => by
    have h1 : sampleSub x dxv = .ok (sampleSubT x dxv) :=
      sampleSub_eq_ok (hint x (List.mem_cons_self x xs)) hdx
    have hmem : xs.getLastD x ∈ x :: xs := by
      have := getLastD_mem (x :: xs) (sampleSubT x dxv) (List.cons_ne_nil x xs)
      rwa [List.getLastD_cons] at this
    have h3 : sampleAdd (xs.getLastD x) dxv = .ok (sampleAddT (xs.getLastD x) dxv) :=
      sampleAdd_eq_ok (hint _ hmem) hdx
    simp only [getIdx_cons_zero, bind_ok, h1, getLastE_cons, List.getLastD_cons, h3,
      List.headD_cons]

/-- Under the hypotheses of claim C2 (rectangular grid, at least 2×2,
integer land-uses), `_inject_ghost_centers` succeeds and returns exactly
the ghost-padded grid described by the claims (`padTotal`). -/
theorem inject_eq_padTotal {m : List (List Sample)} {C : Nat}
    (hm : 2 ≤ m.length) (hC : 2 ≤ C) (hrows : ∀ row ∈ m, row.length = C)
    (hlu : IntGrid m) :
    _inject_ghost_centers m = .ok (padTotal m) := by
  cases m with
  | nil => simp at hm
  | cons r0 mt =>
  cases mt with
  | nil => simp at hm
  | cons r1 rest =>
  have h0len : r0.length = C := hrows r0 (by simp)
  have h1len : r1.length = C := hrows r1 (by simp)
  obtain ⟨a, b, r0tt, rfl⟩ : ∃ x y xs, r0 = x :: y :: xs := by
    cases r0 with
    | nil => simp at h0len; omega
    | cons x xs =>
      cases xs with
      | nil => simp at h0len; omega
      | cons y ys => exact ⟨x, y, ys, rfl⟩
  obtain ⟨c, r1t, rfl⟩ : ∃ x xs, r1 = x :: xs := by
    cases r1 with
    | nil => simp at h1len; omega
    | cons x xs => exact ⟨x, xs, rfl⟩
  have hA : a.lu.isInt = true := hlu (a :: b :: r0tt) (by simp) a (by simp)
  have hB : b.lu.isInt = true := hlu (a :: b :: r0tt) (by simp) b (by simp)
  have hc : c.lu.isInt = true := hlu (c :: r1t) (by simp) c (by simp)
  have hdxInt : (zeroZ (sampleSubT b a)).lu.isInt = true := luSubZ_isInt b.lu a.lu
  have hdyInt : (zeroZ (sampleSubT c a)).lu.isInt = true := luSubZ_isInt c.lu a.lu
  have e6 : sampleSub b a = .ok (sampleSubT b a) := sampleSub_eq_ok hB hA
  have e7 : sampleSub c a = .ok (sampleSubT c a) := sampleSub_eq_ok hc hA
  have e8 : mapE (fun s => sampleSub s (zeroZ (sampleSubT c a))) (a :: b :: r0tt)
      = .ok ((a :: b :: r0tt).map fun s => sampleSubT s (zeroZ (sampleSubT c a))) :=
    mapE_ok_of_forall fun s hs => sampleSub_eq_ok (hlu (a :: b :: r0tt) (by simp) s hs) hdyInt
  have hmemL : rest.getLastD (c :: r1t) ∈ ((a :: b :: r0tt) :: (c :: r1t) :: rest) := by
    cases rest with
    | nil => simp
    | cons r rs =>
      exact List.mem_cons_of_mem _ (List.mem_cons_of_mem _ (getLastD_mem (r :: rs) _ (by simp)))
  have e9 : mapE (fun s => sampleAdd s (zeroZ (sampleSubT c a))) (rest.getLastD (c :: r1t))
      = .ok ((rest.getLastD (c :: r1t)).map fun s => sampleAddT s (zeroZ (sampleSubT c a))) :=
    mapE_ok_of_forall fun s hs => sampleAdd_eq_ok (hlu (rest.getLastD (c :: r1t)) hmemL s hs) hdyInt
  -- the last padding pass, one equation for the whole list m2
  have hm2mem : ∀ row ∈ (((a :: b :: r0tt).map fun s => sampleSubT s (zeroZ (sampleSubT c a)))
        :: ((a :: b :: r0tt) :: (c :: r1t) :: rest))
      ++ [(rest.getLastD (c :: r1t)).map fun s => sampleAddT s (zeroZ (sampleSubT c a))],
      row ≠ [] ∧ ∀ s ∈ row, s.lu.isInt = true := by
    intro row hrow
    rcases List.mem_append.mp hrow with h | h
    · rcases List.mem_cons.mp h with h | h
      · subst h
        refine ⟨by simp, ?_⟩
        intro s hs
        obtain ⟨s0, _, rfl⟩ := List.mem_map.mp hs
        exact luSubZ_isInt _ _
      · refine ⟨?_, hlu row h⟩
        have := hrows row h
        intro hnil
        rw [hnil] at this
        simp at this
        omega
    · rcases List.mem_cons.mp h with h | h
      · subst h
        have hlen : (rest.getLastD (c :: r1t)).length = C := hrows _ hmemL
        refine ⟨?_, ?_⟩
        · intro hnil
          have h0 := congrArg List.length hnil
          rw [List.length_map, hlen] at h0
          simp at h0
          omega
        · intro s hs
          obtain ⟨s0, _, rfl⟩ := List.mem_map.mp hs
          exact luAddZ_isInt _ _
      · exact absurd h (List.not_mem_nil row)
  have e10 : mapE (fun row => do
        let h ← getIdx row 0
        let gcF ← sampleSub h (zeroZ (sampleSubT b a))
        let t ← getLastE (gcF :: row)
        let gcL ← sampleAdd t (zeroZ (sampleSubT b a))
        (.ok ((gcF :: row) ++ [gcL]) : Except Err (List Sample)))
      ((((a :: b :: r0tt).map fun s => sampleSubT s (zeroZ (sampleSubT c a)))
        :: ((a :: b :: r0tt) :: (c :: r1t) :: rest))
       ++ [(rest.getLastD (c :: r1t)).map fun s => sampleAddT s (zeroZ (sampleSubT c a))])
      = .ok (((((a :: b :: r0tt).map fun s => sampleSubT s (zeroZ (sampleSubT c a)))
        :: ((a :: b :: r0tt) :: (c :: r1t) :: rest))
       ++ [(rest.getLastD (c :: r1t)).map fun s => sampleAddT s (zeroZ (sampleSubT c a))]).map
        fun row => (sampleSubT (row.headD dummy) (zeroZ (sampleSubT b a)) :: row)
          ++ [sampleAddT (row.getLastD (sampleSubT (row.headD dummy) (zeroZ (sampleSubT b a))))
              (zeroZ (sampleSubT b a))]) :=
    mapE_ok_of_forall fun row hrow =>
      extRow_eq hdxInt (hm2mem row hrow).1 (hm2mem row hrow).2
  have e85 : getLastE (((a :: b :: r0tt).map fun s => sampleSubT s (zeroZ (sampleSubT c a)))
      :: (a :: b :: r0tt) :: (c :: r1t) :: rest) = .ok (rest.getLastD (c :: r1t)) := by
    rw [getLastE_cons, List.getLastD_cons, List.getLastD_cons]
  unfold _inject_ghost_centers padTotal
  simp only [getIdx_cons_zero, getIdx_cons_one, bind_ok, e6, e7, e8, e85, e9,
    List.getLastD_cons, List.headD_cons, List.getD_cons_zero, List.getD_cons_succ]
  rw [e10]

theorem padTotal_length (m : List (List Sample)) : (padTotal m).length = m.length + 2 := by
  unfold padTotal
  simp [List.length_append]

theorem padTotal_rows {m : List (List Sample)} {C : Nat}
    (hm : m ≠ []) (hrows : ∀ row ∈ m, row.length = C) :
    ∀ row ∈ padTotal m, row.length = C + 2 := by
  intro row hrow
  unfold padTotal at hrow
  simp only [List.mem_map] at hrow
  obtain ⟨r, hr, rfl⟩ := hrow
  have hrC : r.length = C := by
    rcases List.mem_append.mp hr with h | h
    · rcases List.mem_cons.mp h with h | h
      · subst h
        rw [List.length_map]
        cases m with
        | nil => exact absurd rfl hm
        | cons r0 mt => exact hrows r0 (List.mem_cons_self r0 mt)
      · exact hrows r h
    · rcases List.mem_cons.mp h with h | h
      · subst h
        rw [List.length_map, List.getLastD_cons]
        exact getLastD_length m _ hm hrows
      · exact absurd h (List.not_mem_nil r)
  simp [hrC]

theorem get_vert_eq_mean4 (a b c d : Sample) :
    _get_vert [a, b, c, d] = mean4 a.pos b.pos c.pos d.pos := by
  unfold _get_vert _avg mean4 Sample.pos
  simp only [List.map_cons, List.map_nil, List.sum_cons, List.sum_nil, List.length_cons,
    List.length_nil, Vert.mk.injEq]
  norm_num
  refine ⟨by ring, by ring, by ring⟩

theorem vertRow_eq {w : Nat} {prev row : List Sample}
    (hp : prev.length = w + 1) (hr : row.length = w + 1) :
    vertRow prev row = .ok ((List.range w).map fun j =>
      mean4 (prev.getD j dummy).pos (prev.getD (j + 1) dummy).pos
            (row.getD j dummy).pos (row.getD (j + 1) dummy).pos) := by
  unfold vertRow
  rw [hr, Nat.add_sub_cancel]
  refine mapE_ok_of_forall fun j hj => ?_
  rw [List.mem_range] at hj
  have hnc : _get_neighbour_centers prev row j = .ok
      [prev.getD j dummy, prev.getD (j + 1) dummy, row.getD j dummy, row.getD (j + 1) dummy] := by
    unfold _get_neighbour_centers
    rw [getIdx_eq_ok dummy (by omega), bind_ok, getIdx_eq_ok dummy (by omega), bind_ok,
      getIdx_eq_ok dummy (by omega), bind_ok, getIdx_eq_ok dummy (by omega), bind_ok]
  rw [hnc, bind_ok, get_vert_eq_mean4]

theorem vertsLoop_eq {w : Nat} :
    ∀ (rows : List (List Sample)) (prev : List Sample),
      prev.length = w + 1 → (∀ r ∈ rows, r.length = w + 1) →
      vertsLoop prev rows = .ok ((List.range rows.length).flatMap fun i =>
        (List.range w).map fun j =>
          mean4 (posAt (prev :: rows) i j) (posAt (prev :: rows) i (j + 1))
                (posAt (prev :: rows) (i + 1) j) (posAt (prev :: rows) (i + 1) (j + 1)))
  | [], prev, _, _ => by simp [vertsLoop]
  | r :: rs, prev, hp, hrs => by
    have hr : r.length = w + 1 := hrs r (List.mem_cons_self r rs)
    have ih := vertsLoop_eq rs r hr fun q hq => hrs q (List.mem_cons_of_mem r hq)
    unfold vertsLoop
    rw [vertRow_eq hp hr, bind_ok, ih, bind_ok]
    congr 1
    rw [List.length_cons, List.range_succ_eq_map, List.flatMap_cons, List.flatMap_map]
    congr 1

theorem get_verts_of_inject {m : List (List Sample)} {p0 : List Sample}
    {prest : List (List Sample)}
    (h : _inject_ghost_centers m = .ok (p0 :: prest)) :
    _get_verts m = (do
      let vs ← vertsLoop p0 prest
      (.ok (vs, p0 :: prest) : Except Err (List Vert × List (List Sample)))) := by
  unfold _get_verts
  rw [h, bind_ok]

/-- The master characterisation of `_get_verts` used by claims C2 and C4:
on a rectangular grid of at least 2×2 with integer land-uses it returns
the row-major corner vertices (each the mean of its four ghost-padded
neighbours) together with the padded matrix as the final state of the
caller's grid. -/
theorem get_verts_master {m : List (List Sample)} {R C : Nat}
    (hR : 2 ≤ R) (hC : 2 ≤ C) (hlen : m.length = R)
    (hrows : ∀ row ∈ m, row.length = C) (hlu : IntGrid m) :
    _get_verts m = .ok (
      (List.range (R + 1)).flatMap fun i => (List.range (C + 1)).map fun j =>
        mean4 (posAt (padTotal m) i j) (posAt (padTotal m) i (j + 1))
              (posAt (padTotal m) (i + 1) j) (posAt (padTotal m) (i + 1) (j + 1)),
      padTotal m) := by
  have hm2 : 2 ≤ m.length := by omega
  have hmne : m ≠ [] := by
    intro h
    rw [h] at hm2
    simp at hm2
  have hinj := inject_eq_padTotal hm2 hC hrows hlu
  have hplen : (padTotal m).length = R + 2 := by rw [padTotal_length, hlen]
  have hprows : ∀ row ∈ padTotal m, row.length = (C + 1) + 1 :=
    padTotal_rows hmne hrows
  obtain ⟨p0, prest, hpad⟩ : ∃ p0 prest, padTotal m = p0 :: prest := by
    cases hpd : padTotal m with
    | nil => rw [hpd] at hplen; simp at hplen
    | cons p0 prest => exact ⟨p0, prest, rfl⟩
  rw [get_verts_of_inject (hpad ▸ hinj)]
  have hp0 : p0.length = (C + 1) + 1 := hprows p0 (by rw [hpad]; exact List.mem_cons_self _ _)
  have hpr : ∀ q ∈ prest, q.length = (C + 1) + 1 := fun q hq =>
    hprows q (by rw [hpad]; exact List.mem_cons_of_mem _ hq)
  have hprl : prest.length = R + 1 := by
    have h2 := hplen
    rw [hpad, List.length_cons] at h2
    omega
  rw [vertsLoop_eq prest p0 hp0 hpr, bind_ok, hprl, ← hpad]

/-- **C2, counterexample to the claim as stated.**  The claim quantifies
over every rectangular R×C grid with R ≥ 2 and C ≥ 2, but on the 2×2
grid `gB` — whose land-use is the categorical (string) code `"B"` — the
Vertex Reconstructor does not return the `(R+1)·(C+1)` vertices: the
ghost-displacement computation `dx = matrix[0][1] - matrix[0][0]`
subtracts all four tuple slots, land-use included, and `"B" - "B"` is a
Python `TypeError`. -/
theorem C2_counterexample : _get_verts gB = .error .typeError := by
  norm_num [_get_verts, _inject_ghost_centers, gB, getIdx, sampleSub, PyVal.sub, bind_ok,
    bind_error]

/-- **C2, amended.**  For every rectangular R×C grid with R ≥ 2, C ≥ 2
whose land-use codes are integers (so that the land-use slot arithmetic of
the ghost displacement is defined), `_get_verts` returns exactly
`(R+1)·(C+1)` vertices in row-major corner order matching the Face
Builder's index scheme (the vertex of corner `(i, j)` sits at 0-based
list position `i·(C+1)+j`, i.e. 1-based index `i·(C+1)+j+1`), where each
vertex is the component-wise arithmetic mean of the positions (land-use
dropped) of the four surrounding centers of the ghost-padded grid
`padTotal m` — built with `dx = grid[0][1] - grid[0][0]`,
`dy = grid[1][0] - grid[0][0]`, elevation components forced to zero, a
ghost row of first-row entries minus `dy` prepended, one of last-row
entries plus `dy` appended, and every row extended by `row[0] - dx` and
`row[-1] + dx`. -/
theorem C2_vertex_reconstructor (m : List (List Sample)) (R C : Nat)
    (hR : 2 ≤ R) (hC : 2 ≤ C) (hlen : m.length = R)
    (hrows : ∀ row ∈ m, row.length = C) (hlu : IntGrid m) :
    ∃ vs, _get_verts m = .ok (vs, padTotal m) ∧
      vs.length = (R + 1) * (C + 1) ∧
      ∀ i j, i ≤ R → j ≤ C →
        vs[i * (C + 1) + j]? = some (mean4
          (posAt (padTotal m) i j) (posAt (padTotal m) i (j + 1))
          (posAt (padTotal m) (i + 1) j) (posAt (padTotal m) (i + 1) (j + 1))) := by
  refine ⟨_, get_verts_master hR hC hlen hrows hlu, ?_, ?_⟩
  · exact flatMap_blocks_length (R + 1) (C + 1) _
  · intro i j hi hj
    exact flatMap_blocks_getElem (R + 1)
      (fun a b => mean4 (posAt (padTotal m) a b) (posAt (padTotal m) a (b + 1))
        (posAt (padTotal m) (a + 1) b) (posAt (padTotal m) (a + 1) (b + 1)))
      (C + 1) i j (by omega) (by omega)

/-- Witness for `C2_vertex_reconstructor` at the concrete grid `g22`. -/
theorem C2_vertex_reconstructor_witness :
    (2 ≤ 2 ∧ g22.length = 2 ∧ (∀ row ∈ g22, row.length = 2) ∧ IntGrid g22) ∧
    (∃ vs, _get_verts g22 = .ok (vs, padTotal g22) ∧
      vs.length = (2 + 1) * (2 + 1) ∧
      ∀ i j, i ≤ 2 → j ≤ 2 →
        vs[i * (2 + 1) + j]? = some (mean4
          (posAt (padTotal g22) i j) (posAt (padTotal g22) i (j + 1))
          (posAt (padTotal g22) (i + 1) j) (posAt (padTotal g22) (i + 1) (j + 1)))) :=
  ⟨⟨by decide, by decide, by decide, by decide⟩,
    C2_vertex_reconstructor g22 2 2 (by decide) (by decide) (by decide) (by decide) (by decide)⟩

set_option maxHeartbeats 2000000 in
/-- Full concrete evaluation of the Vertex Reconstructor on the 2×2 grid
`g22`: the nine lattice vertices `v22` and the padded post-state `p22`. -/
theorem get_verts_g22_eval : _get_verts g22 = .ok (v22, p22) := by
  norm_num [_get_verts, _inject_ghost_centers, g22, v22, p22, getIdx, getLastE, sampleSub,
    sampleAdd, PyVal.sub, PyVal.add, zeroZ, mapE, vertsLoop, vertRow, _get_neighbour_centers,
    _get_vert, _avg, bind_ok, bind_error, List.range_succ, dummy]

/-- **C4, counterexample to the claim as stated.**  `_get_verts` does
mutate the caller's grid: called on the 2×2 grid `g22` it leaves the
matrix in the 4×4 ghost-padded state `p22` (the source comments the call
`_inject_ghost_centers(matrix)` with "modification in place"), so after
vertex reconstruction the input grid no longer holds its original 2 rows
of 2 entries. -/
theorem C4_counterexample :
    _get_verts g22 = .ok (v22, p22) ∧ p22 ≠ g22 ∧ p22.length = 4 ∧ g22.length = 2 := by
  refine ⟨get_verts_g22_eval, ?_, by decide, by decide⟩
  intro h
  have := congrArg List.length h
  simp [p22, g22] at this

/-- **C4, amended.**  On every rectangular R×C grid (R, C ≥ 2, integer
land-uses) the Vertex Reconstructor leaves the caller's matrix in the
ghost-padded state: after `_get_verts` the matrix holds R+2 rows of C+2
entries each — the transient Ghost-Padded Grid is an in-place mutation of
the caller's Grid, not a separate structure (`_get_faces` is unaffected
only because `get_geometry` calls it before `_get_verts`). -/
theorem C4_amended (m : List (List Sample)) (R C : Nat)
    (hR : 2 ≤ R) (hC : 2 ≤ C) (hlen : m.length = R)
    (hrows : ∀ row ∈ m, row.length = C) (hlu : IntGrid m) :
    ∃ vs, _get_verts m = .ok (vs, padTotal m) ∧
      (padTotal m).length = R + 2 ∧ (∀ row ∈ padTotal m, row.length = C + 2) ∧
      padTotal m ≠ m := by
  have hmne : m ≠ [] := by
    intro h
    rw [h] at hlen
    simp at hlen
    omega
  refine ⟨_, get_verts_master hR hC hlen hrows hlu,
    by rw [padTotal_length, hlen], padTotal_rows hmne hrows, ?_⟩
  intro h
  have h2 := congrArg List.length h
  rw [padTotal_length] at h2
  omega

/-- Witness for `C4_amended` at the concrete grid `g22`. -/
theorem C4_amended_witness :
    (2 ≤ 2 ∧ g22.length = 2 ∧ (∀ row ∈ g22, row.length = 2) ∧ IntGrid g22) ∧
    (∃ vs, _get_verts g22 = .ok (vs, padTotal g22) ∧
      (padTotal g22).length = 2 + 2 ∧ (∀ row ∈ padTotal g22, row.length = 2 + 2) ∧
      padTotal g22 ≠ g22) :=
  ⟨⟨by decide, by decide, by decide, by decide⟩,
    C4_amended g22 2 2 (by decide) (by decide) (by decide) (by decide) (by decide)⟩

/-! ## Claims C8, C9, C10 -/

/-- The eight faces of a 2×2 grid (C = 2, so `len_vrow = 3`), cell by
cell in row-major order: `f1` then `f2`. -/
def faces22 : List Face :=
  [(1, 4, 2), (5, 2, 4), (2, 5, 3), (6, 3, 5), (4, 7, 5), (8, 5, 7), (5, 8, 6), (9, 6, 8)]

/-- **C8, counterexample to the claim as stated.**  On the spec's concrete
2×2 scenario with land-use `"A"` (`gA`), the Vertex Reconstructor does
not yield the 9 lattice vertices: the ghost displacement subtracts the
land-use slot and `"A" - "A"` raises a `TypeError`. -/
theorem C8_counterexample : _get_verts gA = .error .typeError := by
  norm_num [_get_verts, _inject_ghost_centers, gA, getIdx, sampleSub, PyVal.sub, bind_ok,
    bind_error]

/-- **C8, amended.**  For the 2×2 grid of centers `(0,0), (1,0)` /
`(0,1), (1,1)`, all elevation 0: the Face Builder yields exactly 8
triangles, every one tagged with the cell land-use — this holds for the
string tag `"A"` of the spec's scenario (`gA`) just as for a numeric tag
(`g22`).  The Vertex Reconstructor, however, faults on the string tag
(`TypeError` in the ghost displacement); with a numeric land-use code it
yields exactly the 9 vertices `v22` of the lattice
`(-1/2, 1/2, 3/2) × (-1/2, 1/2, 3/2)`, every one with elevation 0. -/
theorem C8_concrete_scenario :
    _get_faces gA = .ok (faces22, List.replicate 8 (.str "A")) ∧
    faces22.length = 8 ∧
    _get_verts gA = .error .typeError ∧
    _get_faces g22 = .ok (faces22, List.replicate 8 (.int 7)) ∧
    _get_verts g22 = .ok (v22, p22) ∧
    v22.length = 9 ∧ (∀ v ∈ v22, v.z = 0) := by
  refine ⟨by decide, by decide, ?_, by decide, get_verts_g22_eval, by decide, ?_⟩
  · norm_num [_get_verts, _inject_ghost_centers, gA, getIdx, sampleSub, PyVal.sub, bind_ok,
      bind_error]
  · intro v hv
    fin_cases hv <;> rfl

/-- Evaluation of the Grid Reshaper on the 6-point stream `S6`: two
columns of three collinear points are reshaped (with `column_len = 3`,
one sample dropped per chunk) into the 2×2 grid `g22`. -/
theorem get_matrix_S6_eval : _get_matrix S6 (0, 0) = .ok g22 := by
  norm_num [_get_matrix, S6, feat, g22, columnLenOf, scanColumnLen, _dot_product_gt, _norm_sq,
    featureToSample, pyOr, PyVal.falsy, splitColumns, appendToLast, pyTranspose, minColLen,
    bind_ok, mapE, List.range_succ, List.filterMap_cons]

/-- **C9.**  `get_geometry` polls the cancellation flag after the
grid-reshaping stage and after the face-building stage.  If the first
poll reports cancelled it returns the empty dict having executed only
step 8; if the second does, the empty dict having executed steps 8 and 9;
only with no cancellation does it run all stages and return the 4-tuple
`(verts, faces, landuses, landuses_set)` — so the caller receives two
different result shapes and never a partial vertex/face result on the
cancelled path. -/
theorem C9_cancellation (fb : Feedback) (layer : List Feature) (origin : ℚ × ℚ)
    (m : List (List Sample)) (fs : List Face) (ls : List PyVal) (vs : List Vert)
    (mf : List (List Sample))
    (h1 : _get_matrix layer origin = .ok m)
    (h2 : _get_faces m = .ok (fs, ls))
    (h3 : _get_verts m = .ok (vs, mf)) :
    (fb.canceledAfterMatrix = true →
      get_geometry fb layer origin = (.emptyDict, [8])) ∧
    (fb.canceledAfterMatrix = false → fb.canceledAfterFaces = true →
      get_geometry fb layer origin = (.emptyDict, [8, 9])) ∧
    (fb.canceledAfterMatrix = false → fb.canceledAfterFaces = false →
      get_geometry fb layer origin = (.result vs fs ls ls.dedup, [8, 9, 10, 11])) :=
  ⟨fun hc => by simp [get_geometry, h1, h2, h3, hc],
   fun hc1 hc2 => by simp [get_geometry, h1, h2, h3, hc1, hc2],
   fun hc1 hc2 => by simp [get_geometry, h1, h2, h3, hc1, hc2]⟩

/-- Witness for `C9_cancellation` on the concrete stream `S6` with the
first poll cancelled. -/
theorem C9_cancellation_witness :
    (_get_matrix S6 (0, 0) = .ok g22 ∧
     _get_faces g22 = .ok (faces22, List.replicate 8 (.int 7)) ∧
     _get_verts g22 = .ok (v22, p22)) ∧
    (((Feedback.mk true false).canceledAfterMatrix = true →
      get_geometry ⟨true, false⟩ S6 (0, 0) = (.emptyDict, [8])) ∧
     ((Feedback.mk true false).canceledAfterMatrix = false →
        (Feedback.mk true false).canceledAfterFaces = true →
      get_geometry ⟨true, false⟩ S6 (0, 0) = (.emptyDict, [8, 9])) ∧
     ((Feedback.mk true false).canceledAfterMatrix = false →
        (Feedback.mk true false).canceledAfterFaces = false →
      get_geometry ⟨true, false⟩ S6 (0, 0) =
        (.result v22 faces22 (List.replicate 8 (.int 7))
          (List.replicate 8 (.int 7)).dedup, [8, 9, 10, 11]))) :=
  ⟨⟨get_matrix_S6_eval, by decide, get_verts_g22_eval⟩,
    C9_cancellation ⟨true, false⟩ S6 (0, 0) g22 faces22 (List.replicate 8 (.int 7)) v22 p22
      get_matrix_S6_eval (by decide) get_verts_g22_eval⟩

/-- **C10.**  During reshaping the land-use is read from attribute slot 5
and guarded by `a[5] or 0`: any falsy value — the NULL/None of an absent
attribute, a genuine code `0`, or an empty string code — becomes the
sentinel `0`, so two features at the same position whose slot-5 values
are both falsy produce identical samples: a face tagged 0 downstream is
indistinguishable from one whose cell carried no land-use at all. -/
theorem C10_falsy_landuse (o : ℚ × ℚ) (f g : Feature) (v w : PyVal)
    (hf : f.attrs.get? 5 = some v) (hg : g.attrs.get? 5 = some w)
    (hx : f.x = g.x) (hy : f.y = g.y) (hz : f.z = g.z)
    (hv : v.falsy = true) (hw : w.falsy = true) :
    featureToSample o f = .ok ⟨f.x - o.1, f.y - o.2, f.z, .int 0⟩ ∧
    featureToSample o f = featureToSample o g ∧
    PyVal.falsy .null = true ∧ PyVal.falsy (.int 0) = true ∧
    PyVal.falsy (.str "") = true := by
  have hval : pyOr v (.int 0) = .int 0 := by simp [pyOr, hv]
  have hwal : pyOr w (.int 0) = .int 0 := by simp [pyOr, hw]
  have hf2 : f.attrs[5]? = some v := by rw [← List.get?_eq_getElem?]; exact hf
  have hg2 : g.attrs[5]? = some w := by rw [← List.get?_eq_getElem?]; exact hg
  refine ⟨?_, ?_, by decide, by decide, by decide⟩
  · simp [featureToSample, hf2, hval]
  · simp [featureToSample, hf2, hg2, hval, hwal, hx, hy, hz]

/-- Witness for `C10_falsy_landuse`: a NULL slot-5 attribute and a
genuine 0 code at the same position yield the same sample. -/
theorem C10_falsy_landuse_witness :
    ((feat 3 4 .null).attrs.get? 5 = some .null ∧
     (feat 3 4 (.int 0)).attrs.get? 5 = some (.int 0) ∧
     (feat 3 4 .null).x = (feat 3 4 (.int 0)).x ∧
     (feat 3 4 .null).y = (feat 3 4 (.int 0)).y ∧
     (feat 3 4 .null).z = (feat 3 4 (.int 0)).z ∧
     PyVal.falsy .null = true ∧ PyVal.falsy (.int 0) = true) ∧
    (featureToSample (0, 0) (feat 3 4 .null)
        = .ok ⟨(feat 3 4 .null).x - 0, (feat 3 4 .null).y - 0, (feat 3 4 .null).z, .int 0⟩ ∧
     featureToSample (0, 0) (feat 3 4 .null) = featureToSample (0, 0) (feat 3 4 (.int 0)) ∧
     PyVal.falsy .null = true ∧ PyVal.falsy (.int 0) = true ∧
     PyVal.falsy (.str "") = true) :=
  ⟨⟨by decide, by decide, rfl, rfl, rfl, by decide, by decide⟩,
    C10_falsy_landuse (0, 0) (feat 3 4 .null) (feat 3 4 (.int 0)) .null (.int 0)
      (by decide) (by decide) rfl rfl rfl (by decide) (by decide)⟩

/-! ## Claims C5, C6, C7 (Grid Reshaper failure behaviour) -/

/-- **C5, counterexample to the claim as stated.**  A 1-point stream does
not make the Grid Reshaper fail: it silently returns the 1×1 grid of the
single sample (and the empty stream returns the empty grid) — there is no
`raise` anywhere in `_get_matrix`. -/
theorem C5_counterexample :
    _get_matrix [feat 5 7 (.int 3)] (1, 2) = .ok [[⟨4, 5, 0, .int 3⟩]] ∧
    _get_matrix [] (0, 0) = .ok [] := by
  constructor
  · norm_num [_get_matrix, feat, columnLenOf, featureToSample, pyOr, PyVal.falsy,
      splitColumns, pyTranspose, minColLen, bind_ok, mapE, List.range_succ,
      List.filterMap_cons]
  · rfl

/-- **C5, amended.**  Streams with fewer than 2 points are not rejected:
the Grid Reshaper silently returns the empty grid for the empty stream
and the 1×1 grid of the single sample for a 1-point stream (whose
attribute list reaches slot 5). -/
theorem C5_amended (o : ℚ × ℚ) (f : Feature) (v : PyVal)
    (hf : f.attrs.get? 5 = some v) :
    _get_matrix [] o = .ok [] ∧
    _get_matrix [f] o = .ok [[⟨f.x - o.1, f.y - o.2, f.z, pyOr v (.int 0)⟩]] := by
  have hf2 : f.attrs[5]? = some v := by rw [← List.get?_eq_getElem?]; exact hf
  constructor
  · rfl
  · simp [_get_matrix, columnLenOf, featureToSample, hf2, mapE, splitColumns,
      pyTranspose, minColLen, bind_ok, List.range_succ, List.filterMap_cons]

/-- Witness for `C5_amended` at a concrete 1-point stream. -/
theorem C5_amended_witness :
    (feat 5 7 (.int 3)).attrs.get? 5 = some (.int 3) ∧
    (_get_matrix [] (1, 2) = .ok [] ∧
     _get_matrix [feat 5 7 (.int 3)] (1, 2)
       = .ok [[⟨(feat 5 7 (.int 3)).x - 1, (feat 5 7 (.int 3)).y - 2,
                (feat 5 7 (.int 3)).z, pyOr (.int 3) (.int 0)⟩]]) :=
  ⟨by decide, C5_amended (1, 2) (feat 5 7 (.int 3)) (.int 3) (by decide)⟩

/-- A ragged (non-rectangular) 2-row grid. -/
def gRagged : List (List Sample) :=
  [[⟨0, 0, 0, .int 1⟩], [⟨0, 1, 0, .int 2⟩, ⟨1, 1, 0, .int 2⟩]]

/-- **C7, counterexample to the claim as stated.**  Neither half of the
claim holds on the code: (1) the 4-point stream `S4` has non-uniform
columns under its inferred `column_len = 3`, yet `_get_matrix` silently
returns a truncated, misaligned 1×2 grid (the transpose `zip` cuts to the
shortest column) instead of rejecting; (2) the ragged grid `gRagged`
reaching the Face Builder is processed without any defensive check —
6 faces are emitted using row 0's length for the index scheme. -/
theorem C7_counterexample :
    _get_matrix S4 (0, 0) = .ok [[⟨0, 0, 0, .int 7⟩, ⟨1, 0, 0, .int 7⟩]] ∧
    _get_faces gRagged = .ok
      ([(1, 3, 2), (4, 2, 3), (3, 5, 4), (6, 4, 5), (4, 6, 5), (7, 5, 6)],
       [.int 1, .int 1, .int 2, .int 2, .int 2, .int 2]) := by
  constructor
  · norm_num [_get_matrix, S4, feat, columnLenOf, scanColumnLen, _dot_product_gt, _norm_sq,
      featureToSample, pyOr, PyVal.falsy, splitColumns, appendToLast, pyTranspose, minColLen,
      bind_ok, mapE, List.range_succ, List.filterMap_cons]
  · decide

/-- **C7, amended.**  There is no validation: the Face Builder accepts
every nonempty grid, rectangular or not — it never returns an error, in
particular no dimension-mismatch error — and non-uniform streams are
silently truncated by the reshaper's transpose rather than rejected. -/
theorem C7_amended (m : List (List Sample)) (hm : m ≠ []) :
    ∃ fs ls, _get_faces m = .ok (fs, ls) := by
  cases m with
  | nil => exact absurd rfl hm
  | cons r0 mt => exact ⟨_, _, rfl⟩

/-- Witness for `C7_amended` at the ragged grid `gRagged`. -/
theorem C7_amended_witness :
    gRagged ≠ [] ∧ ∃ fs ls, _get_faces gRagged = .ok (fs, ls) :=
  ⟨by decide, C7_amended gRagged (by decide)⟩

theorem norm_sq_eq_zero_iff {v : ℚ × ℚ} : _norm_sq v = 0 ↔ v.1 = 0 ∧ v.2 = 0 := by
  unfold _norm_sq
  constructor
  · intro h
    have h1 : v.1 ^ 2 = 0 := by nlinarith [sq_nonneg v.1, sq_nonneg v.2]
    have h2 : v.2 ^ 2 = 0 := by nlinarith [sq_nonneg v.1, sq_nonneg v.2]
    exact ⟨pow_eq_zero_iff (two_ne_zero) |>.mp h1, pow_eq_zero_iff (two_ne_zero) |>.mp h2⟩
  · rintro ⟨h1, h2⟩
    rw [h1, h2]
    norm_num

theorem diff_norm_sq_ne_zero {p q : ℚ × ℚ} (h : q ≠ p) :
    _norm_sq (q.1 - p.1, q.2 - p.2) ≠ 0 := by
  intro h0
  rw [norm_sq_eq_zero_iff] at h0
  simp only at h0
  exact h (Prod.ext_iff.mpr ⟨by linarith [h0.1], by linarith [h0.2]⟩)

/-- The column-length scan completes without arithmetic fault whenever
the reference points differ and no scanned point coincides with the
first point. -/
theorem scan_ok_of_ne (f s : ℚ × ℚ) (hfs : f ≠ s) :
    ∀ (rest : List (ℚ × ℚ)) (acc : Nat), (∀ q ∈ rest, q ≠ f) →
      ∃ n, scanColumnLen f s rest acc = .ok n
  | [], acc, _ => ⟨acc, rfl⟩
  | p :: ps, acc, h => by
    have hv0 : _norm_sq (s.1 - f.1, s.2 - f.2) ≠ 0 :=
      diff_norm_sq_ne_zero (Ne.symm hfs)
    have hv1 : _norm_sq (p.1 - f.1, p.2 - f.2) ≠ 0 :=
      diff_norm_sq_ne_zero (h p (List.mem_cons_self p ps))
    have hcond : ¬(_norm_sq (s.1 - f.1, s.2 - f.2) * _norm_sq (p.1 - f.1, p.2 - f.2) = 0) :=
      mul_ne_zero hv0 hv1
    have hrec := scan_ok_of_ne f s hfs ps (acc + 1) fun q hq => h q (List.mem_cons_of_mem p hq)
    unfold scanColumnLen _dot_product_gt
    rw [if_neg hcond, bind_ok]
    by_cases hb : (100 * ((s.1 - f.1) * (p.1 - f.1) + (s.2 - f.2) * (p.2 - f.2)) ^ 2
        > _norm_sq (s.1 - f.1, s.2 - f.2) * _norm_sq (p.1 - f.1, p.2 - f.2))
    · simpa [hb] using hrec
    · simp [hb]

/-- **C6, counterexample to the claim as stated.**  The scan has no guard
at all: with coincident first two points the raw arithmetic fault
(Python's `ZeroDivisionError` from `_dot_product`'s division) propagates
out of `_get_matrix` — there is no distinct, descriptive error anywhere
in the code.  Moreover the second half of the claim fails too: even with
distinct first two points, a scanned point coinciding with the *first*
point also makes the denominator zero. -/
theorem C6_counterexample :
    _get_matrix [feat 0 0 (.int 1), feat 0 0 (.int 1), feat 1 1 (.int 1)] (0, 0)
      = .error .zeroDivisionError ∧
    _get_matrix [feat 0 0 (.int 1), feat 1 0 (.int 1), feat 0 0 (.int 1)] (0, 0)
      = .error .zeroDivisionError := by
  constructor <;>
    norm_num [_get_matrix, feat, columnLenOf, scanColumnLen, _dot_product_gt, _norm_sq,
      bind_ok, bind_error]

/-- **C6, amended.**  The collinearity test is unguarded: if the first
two points coincide, scanning any third point propagates the raw
`ZeroDivisionError` (no distinct error exists in the code); the division
is well-defined — and the scan completes fault-free — exactly under the
stronger precondition that the first two points differ *and* every
scanned point differs from the first point. -/
theorem C6_amended (f s p : ℚ × ℚ) (ps rest : List (ℚ × ℚ))
    (hfs : f ≠ s) (hrest : ∀ q ∈ rest, q ≠ f) :
    columnLenOf (f :: f :: p :: ps) = .error .zeroDivisionError ∧
    ∃ n, columnLenOf (f :: s :: rest) = .ok n := by
  constructor
  · show scanColumnLen f f (p :: ps) 2 = .error .zeroDivisionError
    unfold scanColumnLen _dot_product_gt
    rw [if_pos (by rw [show _norm_sq (f.1 - f.1, f.2 - f.2) = 0 by
        unfold _norm_sq; simp, zero_mul]), bind_error]
  · exact scan_ok_of_ne f s hfs rest 2 hrest

/-- Witness for `C6_amended` at concrete points. -/
theorem C6_amended_witness :
    (((0, 0) : ℚ × ℚ) ≠ ((0, 1) : ℚ × ℚ) ∧
     (∀ q ∈ ([((1, 0) : ℚ × ℚ)] : List (ℚ × ℚ)), q ≠ ((0, 0) : ℚ × ℚ))) ∧
    (columnLenOf [((0, 0) : ℚ × ℚ), (0, 0), (5, 5), (6, 6)] = .error .zeroDivisionError ∧
     ∃ n, columnLenOf [((0, 0) : ℚ × ℚ), (0, 1), (1, 0)] = .ok n) :=
  ⟨⟨by norm_num [Prod.ext_iff], by norm_num [Prod.ext_iff]⟩,
    C6_amended (0, 0) (0, 1) (5, 5) [(6, 6)] [(1, 0)]
      (by norm_num [Prod.ext_iff]) (by norm_num [Prod.ext_iff])⟩

/-! ## Claim C3 (Grid Reshaper round trip) -/

/-- The 3×2 grid the reshaper produces from the 8-point stream `S8`
(its `column_len` is inferred as 4, and the 4th sample of each chunk is
dropped by the second loop). -/
def g32 : List (List Sample) :=
  [[⟨0, 0, 0, .int 7⟩, ⟨1, 0, 0, .int 7⟩],
   [⟨0, 1, 0, .int 7⟩, ⟨1, 1, 0, .int 7⟩],
   [⟨0, 2, 0, .int 7⟩, ⟨1, 2, 0, .int 7⟩]]

set_option maxHeartbeats 1000000 in
/-- The reshaper on the 8-point stream `S8`: `column_len = 4`, one sample
dropped per chunk, transposed to the 3×2 grid `g32`. -/
theorem get_matrix_S8_eval : _get_matrix S8 (0, 0) = .ok g32 := by
  norm_num [_get_matrix, S8, feat, g32, columnLenOf, scanColumnLen, _dot_product_gt,
    _norm_sq, featureToSample, pyOr, PyVal.falsy, splitColumns, appendToLast, pyTranspose,
    minColLen, bind_ok, mapE, List.range_succ, List.filterMap_cons]

set_option maxHeartbeats 1000000 in
/-- The reshaper on the column-major flattening of `g32`: `column_len`
re-inferred as 3, one sample dropped per chunk, giving the 2×2 grid
`g22`. -/
theorem get_matrix_reflat_eval :
    _get_matrix ((flattenCM g32).map refeature) (0, 0) = .ok g22 := by
  norm_num [_get_matrix, flattenCM, columnOf, refeature, g32, g22, columnLenOf,
    scanColumnLen, _dot_product_gt, _norm_sq, featureToSample, pyOr, PyVal.falsy,
    splitColumns, appendToLast, pyTranspose, minColLen, bind_ok, mapE, List.range_succ,
    List.filterMap_cons]

/-- **C3, counterexample to the claim as stated.**  The grid `g32` is
produced by the Grid Reshaper (from stream `S8`), yet running the
reshaper on the exact column-major flattening of `g32` yields the 2×2
grid `g22`, not `g32` back: the re-scan infers `column_len = 3` on the
flattening and drops one sample per chunk, so the round trip loses a
row and a column's worth of data. -/
theorem C3_counterexample :
    _get_matrix S8 (0, 0) = .ok g32 ∧
    _get_matrix ((flattenCM g32).map refeature) (0, 0) = .ok g22 ∧
    g22 ≠ g32 := by
  refine ⟨get_matrix_S8_eval, get_matrix_reflat_eval, ?_⟩
  intro h
  have := congrArg List.length h
  simp [g22, g32] at this

theorem appendToLast_snoc {α : Type} (p : α) :
    ∀ (m0 : List (List α)) (col : List α),
      appendToLast (m0 ++ [col]) p = m0 ++ [col ++ [p]]
  | [], col => rfl
  | [c], col => rfl
  | c :: c2 :: cs, col => by
    have ih := appendToLast_snoc p (c2 :: cs) col
    simp only [List.cons_append] at ih ⊢
    rw [appendToLast, ih]
    simp

theorem splitColumns_zero_step (clen : Nat) (p : Sample) (ps : List Sample)
    (m : List (List Sample)) :
    splitColumns clen (p :: ps) 0 m = splitColumns clen ps 1 (m ++ [[p]]) := rfl

/-- What the second reshaper loop does, jointly for the two reachable
counter states (`i = 0` between chunks, `1 ≤ i ≤ column_len - 1` inside
one). -/
theorem splitColumns_chunks (k : Nat) :
    ∀ ps : List Sample,
      (∀ m0 : List (List Sample), splitColumns (k + 2) ps 0 m0
        = m0 ++ (chunksOf (k + 1) ps).map (List.take (k + 1))) ∧
      (∀ (t : Nat) (col : List Sample) (m0 : List (List Sample)),
        1 ≤ t → t ≤ k + 1 →
        splitColumns (k + 2) ps t (m0 ++ [col])
          = (m0 ++ [col ++ ps.take (k + 1 - t)])
            ++ (chunksOf (k + 1) (ps.drop (k + 2 - t))).map (List.take (k + 1)))
  | [] => by
    constructor
    · intro m0
      simp [splitColumns, chunksOf]
    · intro t col m0 h1 h2
      simp [splitColumns, chunksOf]
  | p :: ps => by
    have ih := splitColumns_chunks k ps
    constructor
    · intro m0
      rw [splitColumns_zero_step, ih.2 1 [p] m0 (Nat.le_refl 1) (by omega)]
      rw [show k + 1 - 1 = k from rfl, show k + 2 - 1 = k + 1 from rfl, chunksOf,
        List.map_cons, List.take_succ_cons, List.take_take,
        show min k (k + 1) = k from by omega]
      simp [List.append_assoc]
    · intro t col m0 h1 h2
      rw [splitColumns]
      by_cases ht : t + 1 = k + 2
      · rw [if_neg (by omega), if_pos ht, ih.1 (m0 ++ [col]),
          show k + 1 - t = 0 from by omega, show k + 2 - t = 1 from by omega]
        simp [List.append_assoc]
      · rw [if_neg (by omega), if_neg ht, appendToLast_snoc p m0 col,
          ih.2 (t + 1) (col ++ [p]) m0 (by omega) (by omega),
          show k + 1 - t = (k + 1 - (t + 1)) + 1 from by omega,
          show k + 2 - t = (k + 2 - (t + 1)) + 1 from by omega]
        simp [List.append_assoc, List.take_succ_cons, List.drop_succ_cons]

/-- **C3, amended.**  After determining `column_len` (at least 2), the
second loop — with `getFeatures()` modelled as re-delivering the full
stream, as the spec's own account of the re-scan assumes — cuts the
stream into consecutive chunks of `column_len` samples but keeps only
the first `column_len - 1` samples of each chunk (the sample at in-chunk
position `column_len` is dropped) before transposing; hence the round
trip does not reproduce the grid. -/
theorem C3_amended (k : Nat) (ps : List Sample) :
    splitColumns (k + 2) ps 0 [] = (chunksOf (k + 1) ps).map (List.take (k + 1)) := by
  have h := (splitColumns_chunks k ps).1 []
  simpa using h

end Qgis2fds
